import Mathlib

/-!
Verification of the `jsdaffodil` deployment library (`src/index.js`).

The source is an SSH deployment tool: `Daffodil` holds a session
configuration, `loadIgnoreList` parses an ignore file, `transferFiles`
archives a local path with an exclude filter, ships and extracts it
remotely with cleanup on every exit path, `connect` probes SSH keys in a
fixed order, and `deploy` orchestrates an ordered list of steps.

We shallowly embed the relevant pure logic (string/pattern handling)
directly, and the effectful pipelines (`connect`, `transferFiles`,
`deploy`) as total functions over an explicit "world" record that fixes
the outcome of every I/O operation, returning a final state, a trace of
events, and a result (normal return or raised error).
-/

namespace Daffodil

/-! ## String primitives (models of the JS string operations used) -/

/-- Model of JS `String.prototype.trim` whitespace (the characters that
occur in practice in ignore files). -/
def isWs (c : Char) : Bool :=
  c = ' ' || c = '\t' || c = '\n' || c = '\r'

/-- Trim whitespace on both ends of a character list. -/
def trimL (l : List Char) : List Char :=
  ((l.dropWhile isWs).reverse.dropWhile isWs).reverse

/-- Model of JS `s.trim()`. -/
def jsTrim (s : String) : String :=
  String.mk (trimL s.data)

/-- Model of JS `s.split("\n")`: split a character list at newline
characters, keeping empty segments. -/
def splitNl : List Char → List (List Char)
  | [] => [[]]
  | c :: t =>
    let r := splitNl t
    if c = '\n' then [] :: r
    else
      match r with
      | [] => [[c]]
      | h :: t2 => (c :: h) :: t2

/-- Prefix test on character lists: `isPref n h` holds when `n` is a
prefix of `h`. -/
def isPref : List Char → List Char → Bool
  | [], _ => true
  | _ :: _, [] => false
  | a :: as, b :: bs => a = b && isPref as bs

/-- Model of JS `haystack.includes(needle)` (substring containment). -/
def hasSub (n : List Char) : List Char → Bool
  | [] => isPref n []
  | c :: t => isPref n (c :: t) || hasSub n t

/-- Model of JS `h.includes(n)` on strings. -/
def strIncludes (h n : String) : Bool :=
  hasSub n.data h.data

/-- Model of JS `h.endsWith(n)` on strings. -/
def strEndsWith (h n : String) : Bool :=
  isPref n.data.reverse h.data.reverse

/-- Model of JS `s.startsWith("#")` (single-character prefix test). -/
def startsWithHash (s : String) : Bool :=
  match s.data with
  | [] => false
  | c :: _ => c = '#'

/-- Test whether the string `s` contains the character `c`. -/
def strHasChar (s : String) (c : Char) : Bool :=
  s.data.any (· = c)

/-- Model of JS `s.replace(/\\/g, "/")`: normalize path separators. -/
def normalizeSeps (s : String) : String :=
  String.mk (s.data.map (fun c => if c = '\\' then '/' else c))

/-- Model of Node `path.basename` (POSIX): strip trailing `/`
separators, then take the final segment. -/
def basename (s : String) : String :=
  let r := s.data.reverse.dropWhile (· = '/')
  String.mk (r.takeWhile (· ≠ '/')).reverse

/-! ## `loadIgnoreList` (src/index.js lines 275–294)

The file content is read, split on newlines, each line trimmed, and
empty lines and `#`-comments filtered out. We model the function on the
file content (the filesystem read and auto-creation are I/O). -/

/-- Embedding of `Daffodil.loadIgnoreList` applied to the ignore file's
content: `content.split("\n").map(l => l.trim()).filter(l => l && !l.startsWith("#"))`. -/
def loadIgnoreList (content : String) : List String :=
  (((splitNl content.data).map (fun l => String.mk (trimL l))).filter
    (fun s => !(s == "") && !(startsWithHash s)))

/-! ## `setOption` (src/index.js lines 79–81)

`setOption({ verbose = false }) { this.verbose = verbose; }` — the
destructuring default means an absent `verbose` field becomes `false`.
We model the options object as an optional boolean field and the
deployer state as its verbose flag. -/

/-- The options object passed to `setOption`: `verbose` is `none` when
the field is absent (or `undefined`). -/
structure SetOptions where
  verbose : Option Bool
deriving DecidableEq, Repr

/-- Embedding of `Daffodil.setOption`: the new verbose flag is the
option's field when present, `false` when absent. -/
def setOption (opts : SetOptions) (_oldVerbose : Bool) : Bool :=
  opts.verbose.getD false

/-! ## The exclude matcher (src/index.js lines 425–466)

`filterFn` is built only when the exclude list is nonempty; it returns
`true` (include) iff no pattern matches. A pattern matches a candidate
path when the candidate's basename equals the pattern (raw or
separator-normalized), or the normalized path contains or ends with the
normalized pattern, or — when the pattern contains `*` — the normalized
path matches the regex `"^" + pattern.replace(/\*/g, ".*").replace(/\//g, "[\\/]") + "$"`.

The constructed regex does NOT escape other regex metacharacters: a `.`
in a pattern stays a regex `.` (any character except newline).  We give
the regex semantics for patterns whose characters are either literal
(no regex metacharacter), `.`, `*`, or `/`; `globSafe` below delimits
that fragment. -/

/-- One token of the regex built by the glob branch. -/
inductive GTok where
  /-- a literal character of the pattern, kept unescaped -/
  | lit (c : Char)
  /-- a dot in the pattern: stays a regex dot (any char except newline) -/
  | anyChar
  /-- a star in the pattern: becomes `.*` -/
  | anyStar
  /-- a slash in the pattern: becomes the class of both separators -/
  | sepClass
deriving DecidableEq, Repr

/-- Tokenize the (separator-normalized) pattern exactly as the two
`replace` calls build the regex source. -/
def globTokens (p : List Char) : List GTok :=
  p.map (fun c =>
    if c = '*' then GTok.anyStar
    else if c = '/' then GTok.sepClass
    else if c = '.' then GTok.anyChar
    else GTok.lit c)

/-- Regex metacharacters of JS other than the ones the construction
handles (`*`, `/`, `.`); a pattern avoiding these is modelled exactly. -/
def isRegexMeta (c : Char) : Bool :=
  c = '+' || c = '?' || c = '(' || c = ')' || c = '[' || c = ']' ||
  c = '^' || c = '$' || c = '|' || c = '\\' ||
  c = Char.ofNat 123 || c = Char.ofNat 125

/-- The pattern fragment whose constructed regex our token semantics
models exactly. -/
def globSafe (p : String) : Bool :=
  p.data.all (fun c => !(isRegexMeta c))

/-- Semantics of `.*` followed by a continuation `g`: either the continuation matches
here, or consume one non-newline character and repeat. -/
def starMatch (g : List Char → Bool) : List Char → Bool
  | [] => g []
  | x :: xs => g (x :: xs) || (x ≠ '\n' && starMatch g xs)

/-- Matching of the anchored token list against a character list; JS `.`
(and hence `.*`) never matches a newline. -/
def gmatch : List GTok → List Char → Bool
  | [], cs => cs.isEmpty
  | GTok.lit c :: ts, cs =>
    match cs with
    | [] => false
    | x :: xs => c = x && gmatch ts xs
  | GTok.anyChar :: ts, cs =>
    match cs with
    | [] => false
    | x :: xs => x ≠ '\n' && gmatch ts xs
  | GTok.sepClass :: ts, cs =>
    match cs with
    | [] => false
    | x :: xs => (x = '\\' || x = '/') && gmatch ts xs
  | GTok.anyStar :: ts, cs => starMatch (gmatch ts) cs

/-- The glob-branch test of `filterFn`: build the regex from the
normalized pattern and test the normalized candidate. -/
def globTest (normalizedPattern normalizedPath : String) : Bool :=
  gmatch (globTokens normalizedPattern.data) normalizedPath.data

/-- Embedding of the per-pattern predicate inside `filterFn`'s `some`:
`true` means the pattern excludes the candidate. -/
def patternMatches (pattern filePath : String) : Bool :=
  let normalizedPath := normalizeSeps filePath
  let fileName := basename filePath
  let normalizedPattern := normalizeSeps pattern
  if fileName == pattern || fileName == normalizedPattern then true
  else if strIncludes normalizedPath normalizedPattern ||
          strEndsWith normalizedPath normalizedPattern then true
  else if strHasChar normalizedPattern '*' then
    globTest normalizedPattern normalizedPath
  else false

/-- Embedding of the archiving filter: `filterFn` is installed only when
the exclude list is nonempty, and returns `!excludeList.some(...)`; with
an empty list no filter runs and every path is included. -/
def shouldInclude (excludeList : List String) (filePath : String) : Bool :=
  match excludeList with
  | [] => true
  | _ => !(excludeList.any (fun p => patternMatches p filePath))

/-- The matcher the spec describes for the glob branch: identical except
that every regex metacharacter is escaped, so `.` is a literal dot. -/
def specGlobTokens (p : List Char) : List GTok :=
  p.map (fun c =>
    if c = '*' then GTok.anyStar
    else if c = '/' then GTok.sepClass
    else GTok.lit c)

/-- Spec-described glob test: all metacharacters escaped except the `*`
and `/` translations. -/
def specGlobTest (normalizedPattern normalizedPath : String) : Bool :=
  gmatch (specGlobTokens normalizedPattern.data) normalizedPath.data

/-! ## Error taxonomy (src/index.js lines 10–53)

`PathNotFoundError` carries a path and a type; `TransferError` carries a
message and the original cause; an error that escapes unclassified (for
example one thrown by the cleanup code in the catch block itself) is
modelled as `raw`.  A generic JS error is a message plus an optional
`code` property. -/

/-- A generic JS `Error` as the pipeline observes it: its `message` and
its optional `code` property (e.g. `"ENOENT"`). -/
structure BaseError where
  message : String
  code : Option String := none
deriving DecidableEq, Repr

/-- The message built by the `PathNotFoundError` constructor. -/
def pathNotFoundMessage (p ptype : String) : String :=
  "The " ++ ptype ++ " does not exist: " ++ p ++
  "\nPlease ensure the " ++ ptype ++ " exists before attempting to transfer."

/-- An error as raised by `transferFiles`. -/
inductive PipelineError where
  /-- a `PathNotFoundError` with its `path` and `type` fields -/
  | pathNotFound (path ptype : String)
  /-- a `TransferError` with its message and original cause -/
  | transfer (message : String) (original : BaseError)
  /-- an error that propagates without classification (thrown by the
  catch block's own local cleanup) -/
  | raw (e : BaseError)
deriving DecidableEq, Repr

/-- An error thrown inside the `try` block, as seen by the catch. -/
inductive Thrown where
  /-- a `PathNotFoundError` instance -/
  | pnf (path ptype : String)
  /-- any other error -/
  | base (e : BaseError)
deriving DecidableEq, Repr

/-! ## Parsing the missing path out of an ENOENT message

The catch block matches the message against the regex
`lstat [quote](.+?)[quote]` (where [quote] is a character class holding
the single and the double quote) and uses the captured group, falling
back to the input path.  We model the leftmost match of that regex:
find the first position where `lstat ` followed by a quote occurs and a
lazy capture of at least one non-newline character is closed by the
next quote. -/

/-- Single or double quote, the characters of the quote classes. -/
def quoteChar (c : Char) : Bool :=
  c = '\'' || c = '"'

/-- Continue the lazy capture: close at the first quote, fail on a
newline or the end of the string. -/
def captureScan (acc : List Char) : List Char → Option (List Char)
  | [] => none
  | c :: rest =>
    if quoteChar c then some acc.reverse
    else if c = '\n' then none
    else captureScan (c :: acc) rest

/-- The lazy group `(.+?)` followed by a closing quote: at least one
non-newline character, closed by the first quote after it. -/
def lazyCapture : List Char → Option (List Char)
  | [] => none
  | c :: rest => if c = '\n' then none else captureScan [c] rest

/-- Try to match the quoted-path regex at the head of the list. -/
def lstatMatchAt (l : List Char) : Option (List Char) :=
  if isPref "lstat ".data l then
    match l.drop 6 with
    | [] => none
    | q :: rest => if quoteChar q then lazyCapture rest else none
  else none

/-- Leftmost match: try every start position left to right. -/
def lstatScan : List Char → Option (List Char)
  | [] => none
  | c :: rest =>
    match lstatMatchAt (c :: rest) with
    | some cap => some cap
    | none => lstatScan rest

/-- Embedding of the quoted-path regex match on the error message,
returning the captured missing path when the message has one. -/
def parseLstatPath (msg : String) : Option String :=
  (lstatScan msg.data).map String.mk

/-! ## The catch-block classification (src/index.js lines 619–657) -/

/-- Embedding of the classification in `transferFiles`' catch block: a
`PathNotFoundError` is re-raised as is; an error whose `code` is
`"ENOENT"` or whose message contains `"ENOENT"` becomes a
`PathNotFoundError` on the parsed missing path (falling back to the
input path) with type `"file or directory"`; anything else is wrapped
as a `TransferError` carrying the original error. -/
def classifyTransferError (localPath : String) (t : Thrown) : PipelineError :=
  match t with
  | Thrown.pnf p ty => PipelineError.pathNotFound p ty
  | Thrown.base e =>
    if e.code = some "ENOENT" || strIncludes e.message "ENOENT" then
      let missingPath := (parseLstatPath e.message).getD localPath
      PipelineError.pathNotFound missingPath "file or directory"
    else
      PipelineError.transfer ("Transfer failed: " ++ e.message) e

/-! ## The transfer pipeline (src/index.js lines 345–659)

Every I/O operation's outcome is fixed by a `TransferWorld`: whether the
local path exists and what kind of node it is, whether each fallible
operation succeeds or throws (and with which error), and what the remote
extraction command reports.  The pipeline threads a `TransferState`
recording whether the local archive file currently exists (and whether
it ever existed) and whether the remote archive copy exists.

The platform separator is modelled as `/`, so the validation check
`localPath.endsWith(path.sep) || localPath.endsWith("/")` collapses to
one test. -/

/-- Outcomes of every I/O operation `transferFiles` performs, in
pipeline order. -/
structure TransferWorld where
  /-- result of `fs.pathExists(localPath)` -/
  localExists : Bool
  /-- result of `fs.stat(localPath).isDirectory()` -/
  statIsDirectory : Bool
  /-- result of `stats.isFile()` -/
  statIsFile : Bool
  /-- error thrown by `fs.readdir(localPath)` (directories only) -/
  readdirErr : Option BaseError := none
  /-- error thrown by the first `tar.create` (with the filter when the
  exclude list is nonempty) -/
  tarCreateErr : Option BaseError := none
  /-- a partial archive file is left behind when that call throws -/
  tarPartialFile : Bool := false
  /-- error thrown by the retry without the filter -/
  tarRetryErr : Option BaseError := none
  /-- a partial archive file is left behind when the retry throws -/
  tarRetryPartial : Bool := false
  /-- the archive file exists after a successful `tar.create` -/
  tarCreatesFile : Bool := true
  /-- rejection of `ssh.execCommand("rm -f <remote archive> || true")` -/
  rmOldRemoteErr : Option BaseError := none
  /-- rejection of `ssh.putFile` -/
  putFileErr : Option BaseError := none
  /-- rejection of `ssh.execCommand("mkdir -p <destination> || true")` -/
  mkdirRemoteErr : Option BaseError := none
  /-- rejection of the extract `execCommand` itself -/
  extractErr : Option BaseError := none
  /-- exit code reported by the extract command -/
  extractCode : Nat := 0
  /-- stdout reported by the extract command -/
  extractStdout : String := ""
  /-- stderr reported by the extract command -/
  extractStderr : String := ""
  /-- error thrown by the step-4 `fs.remove` on the success path -/
  removeAfterSuccessErr : Option BaseError := none
  /-- error thrown by the `fs.remove` in the catch block -/
  removeInCatchErr : Option BaseError := none
  /-- rejection of the remote-cleanup `execCommand` in the catch block -/
  remoteCleanupErr : Option BaseError := none
deriving DecidableEq, Repr

/-- Filesystem facts the pipeline is responsible for. -/
structure TransferState where
  /-- the local archive file currently exists -/
  localArchive : Bool := false
  /-- the local archive file existed at some point -/
  archiveEverCreated : Bool := false
  /-- the remote archive copy currently exists -/
  remoteArchive : Bool := false
deriving DecidableEq, Repr

/-- The pipeline from the remote-stale-archive removal onward, entered
with the local archive already created (src/index.js lines 516–597). -/
def afterCreate (w : TransferWorld) (s : TransferState) :
    TransferState × Except Thrown Unit :=
  if !s.localArchive then
    (s, Except.error (Thrown.base { message := "Archive file was not created" }))
  else
    match w.rmOldRemoteErr with
    | some e => (s, Except.error (Thrown.base e))
    | none =>
      match w.putFileErr with
      | some e => (s, Except.error (Thrown.base e))
      | none =>
        let s := { s with remoteArchive := true }
        match w.mkdirRemoteErr with
        | some e => (s, Except.error (Thrown.base e))
        | none =>
          match w.extractErr with
          | some e => (s, Except.error (Thrown.base e))
          | none =>
            if w.extractCode ≠ 0 then
              (s, Except.error (Thrown.base
                { message := "Failed to extract archive: " ++
                    (if w.extractStderr == "" then w.extractStdout
                     else w.extractStderr) }))
            else
              let s := { s with remoteArchive := false }
              if s.localArchive then
                match w.removeAfterSuccessErr with
                | some e => (s, Except.error (Thrown.base e))
                | none => ({ s with localArchive := false }, Except.ok ())
              else (s, Except.ok ())

/-- The `try` block of `transferFiles` (src/index.js lines 406–598):
read the directory entries, create the archive (retrying once without
the filter when a filter was installed), then hand over to
`afterCreate`. -/
def tryBody (excludeList : List String) (w : TransferWorld) :
    TransferState × Except Thrown Unit :=
  let s : TransferState := {}
  match (if w.statIsDirectory then w.readdirErr else none) with
  | some e => (s, Except.error (Thrown.base e))
  | none =>
    match w.tarCreateErr with
    | some e =>
      if excludeList.isEmpty then
        ({ s with localArchive := w.tarPartialFile,
                  archiveEverCreated := w.tarPartialFile },
         Except.error (Thrown.base e))
      else
        match w.tarRetryErr with
        | some e2 =>
          ({ s with localArchive := w.tarRetryPartial,
                    archiveEverCreated := w.tarRetryPartial },
           Except.error (Thrown.base e2))
        | none =>
          afterCreate w { s with localArchive := w.tarCreatesFile,
                                 archiveEverCreated := w.tarCreatesFile }
    | none =>
      afterCreate w { s with localArchive := w.tarCreatesFile,
                             archiveEverCreated := w.tarCreatesFile }

/-- The catch block's cleanup and classification (src/index.js lines
599–658).  The local `fs.remove` is NOT guarded: an error it throws
propagates raw and nothing further runs.  The remote cleanup is guarded
by its own try/catch whose handler ignores the error. -/
def catchHandler (localPath : String) (w : TransferWorld)
    (s : TransferState) (t : Thrown) : TransferState × PipelineError :=
  if s.localArchive then
    match w.removeInCatchErr with
    | some e => (s, PipelineError.raw e)
    | none =>
      let s := { s with localArchive := false }
      let s :=
        match w.remoteCleanupErr with
        | some _ => s
        | none => { s with remoteArchive := false }
      (s, classifyTransferError localPath t)
  else
    let s :=
      match w.remoteCleanupErr with
      | some _ => s
      | none => { s with remoteArchive := false }
    (s, classifyTransferError localPath t)

/-- Embedding of `Daffodil.transferFiles`: validate the local path
(before the `try`, so these `PathNotFoundError`s are thrown directly),
then run the try block and route any thrown error through the catch
handler. -/
def transferFiles (excludeList : List String) (localPath : String)
    (w : TransferWorld) : TransferState × Except PipelineError Unit :=
  if !w.localExists then
    ({}, Except.error (PipelineError.pathNotFound localPath
      (if strEndsWith localPath "/" then "directory" else "file or directory")))
  else if !w.statIsDirectory && !w.statIsFile then
    ({}, Except.error (PipelineError.pathNotFound localPath "file or directory"))
  else
    match tryBody excludeList w with
    | (s, Except.ok _) => (s, Except.ok ())
    | (s, Except.error t) =>
      let r := catchHandler localPath w s t
      (r.1, Except.error r.2)

/-! ## `connect` (src/index.js lines 209–273)

The four conventional key filenames are probed in a fixed order; a key
that is not on disk is skipped without an authentication attempt; the
first successful authentication triggers `mkdir -p` of the remote base
path and returns; a failed attempt is caught, recorded, and the loop
continues.  When the loop ends without a success the function calls
`process.exit(1)` — it never raises to the caller, which the result
type mirrors (`exited`, not an error). -/

/-- The fixed probe order of `connect`: RSA, Ed25519, ECDSA, DSA. -/
def keyFiles : List String :=
  ["id_rsa", "id_ed25519", "id_ecdsa", "id_dsa"]

/-- Outcomes of the filesystem and authentication probes. -/
structure ConnectWorld where
  /-- result of `fs.existsSync` on the key path under the ssh folder -/
  keyOnDisk : String → Bool
  /-- whether `ssh.connect` with that key resolves (rather than rejects) -/
  authOk : String → Bool

/-- Observable actions of `connect`. -/
inductive ConnectEvent where
  /-- an authentication attempt with the named key file -/
  | tryAuth (key : String)
  /-- recursive creation of the resolved remote base path -/
  | ensureRemoteDir
deriving DecidableEq, Repr

/-- How `connect` ends: with a live session, or with `process.exit`. -/
inductive ConnectResult where
  /-- returned normally after authenticating with this key -/
  | connected (key : String)
  /-- called `process.exit` with this status -/
  | exited (code : Nat)
deriving DecidableEq, Repr

/-- The key-probing loop of `connect` over a remaining key list. -/
def connectLoop (w : ConnectWorld) : List String → List ConnectEvent × ConnectResult
  | [] => ([], ConnectResult.exited 1)
  | k :: rest =>
    if w.keyOnDisk k then
      if w.authOk k then
        ([ConnectEvent.tryAuth k, ConnectEvent.ensureRemoteDir],
         ConnectResult.connected k)
      else
        let r := connectLoop w rest
        (ConnectEvent.tryAuth k :: r.1, r.2)
    else connectLoop w rest

/-- Embedding of `Daffodil.connect`. -/
def connect (w : ConnectWorld) : List ConnectEvent × ConnectResult :=
  connectLoop w keyFiles

/-! ## `deploy` (src/index.js lines 661–735)

`deploy` connects, then runs the steps in order, breaking at the first
action that throws; the connection is disposed unconditionally after the
loop; a recorded failure is then re-raised as a single
`DeploymentError` whose content depends on the verbose flag.  A step is
a label plus an action whose outcome (normal or thrown error) the world
fixes. -/

/-- One `{step, command}` entry, with the action abstracted by its
outcome: `none` means the action resolves, `some e` that it throws. -/
structure Step where
  /-- the human-readable label -/
  step : String
  /-- the action's outcome -/
  command : Option BaseError
deriving DecidableEq, Repr

/-- The error `deploy` raises, as constructed by `DeploymentError`:
when the stack trace is suppressed, `stack` is overridden to be just
the message. -/
structure DeploymentError where
  /-- the error's message -/
  message : String
  /-- stack trace suppressed (non-verbose construction) -/
  suppressStackTrace : Bool
deriving DecidableEq, Repr

/-- The `stack` surface of a raised `DeploymentError`: the constructor
(and the later `defineProperty` override) set it to the bare message
when suppressed; otherwise Node attaches the capture below the message. -/
def deploymentErrorStack (e : DeploymentError) : String :=
  if e.suppressStackTrace then e.message
  else e.message ++ "\n    at <captured stack frames>"

/-- Observable actions of `deploy`. -/
inductive DeployEvent where
  /-- step `i`'s action was started (0-based, with its label) -/
  | execStep (i : Nat) (label : String)
  /-- disposal of the connection via `ssh.dispose()` -/
  | disposeConn
deriving DecidableEq, Repr

/-- How `deploy` ends. -/
inductive DeployResult where
  /-- all steps succeeded; returns normally -/
  | ok
  /-- a step failed; a single `DeploymentError` is raised -/
  | raised (e : DeploymentError)
  /-- the connect call exhausted all keys and exited the process -/
  | exited (code : Nat)
deriving DecidableEq, Repr

/-- The step loop (src/index.js lines 672–698): run each action in
order, break on the first throw, remembering the failing label and
error. -/
def deployLoop (i : Nat) : List Step → List DeployEvent × Option (String × BaseError)
  | [] => ([], none)
  | s :: rest =>
    match s.command with
    | some e => ([DeployEvent.execStep i s.step], some (s.step, e))
    | none =>
      let r := deployLoop (i + 1) rest
      (DeployEvent.execStep i s.step :: r.1, r.2)

/-- The prefix of the step list whose actions run: everything up to and
including the first step whose action throws. -/
def attemptedSteps : List Step → List Step
  | [] => []
  | s :: rest =>
    match s.command with
    | some _ => [s]
    | none => s :: attemptedSteps rest

/-- The trace the loop produces for a list of steps it starts at index
`i`: one execution event per step, in list order, with increasing
indices. -/
def stepEvents (i : Nat) : List Step → List DeployEvent
  | [] => []
  | s :: rest => DeployEvent.execStep i s.step :: stepEvents (i + 1) rest

/-- The label and error of the first failing step, when one fails. -/
def firstFailure : List Step → Option (String × BaseError)
  | [] => none
  | s :: rest =>
    match s.command with
    | some e => some (s.step, e)
    | none => firstFailure rest

/-- Embedding of `Daffodil.deploy`: `connectOk` abstracts whether the
initial `connect` succeeds (when it does not, the process exits inside
`connect` and neither the steps nor the disposal run). -/
def deploy (connectOk verbose : Bool) (steps : List Step) :
    List DeployEvent × DeployResult :=
  if !connectOk then ([], DeployResult.exited 1)
  else
    let r := deployLoop 0 steps
    let evs := r.1 ++ [DeployEvent.disposeConn]
    match r.2 with
    | none => (evs, DeployResult.ok)
    | some (label, e) =>
      if verbose then
        (evs, DeployResult.raised
          { message := "Deployment failed at step: " ++ label ++ ". " ++ e.message,
            suppressStackTrace := false })
      else
        (evs, DeployResult.raised
          { message := "Deployment failed", suppressStackTrace := true })

end Daffodil

namespace Daffodil

/-! ## Sanity checks on the string models -/

example : splitNl "a\nb".data = ["a".data, "b".data] := by decide
example : loadIgnoreList "# c\nnode_modules\n\n.env\n" = ["node_modules", ".env"] := by decide
example : basename "project/node_modules/pkg/file.js" = "file.js" := by decide
example : patternMatches "node_modules" "project/node_modules/pkg/file.js" = true := by decide
example : patternMatches "*.log" "app.log" = true := by decide
example : patternMatches "*.log" "logs/app.log" = true := by decide
example : patternMatches "*.log" "app.logger" = false := by decide
example : patternMatches "*.log" "appXlog" = true := by decide
example : specGlobTest "*.log" "appXlog" = false := by decide

end Daffodil

namespace Daffodil

/-! ## Helper lemmas about the string models -/

theorem isPref_append (l t : List Char) : isPref l (l ++ t) = true := by
  induction l with
  | nil => rfl
  | cons a as ih => simp [isPref, ih]

theorem hasSub_self_append (n post : List Char) :
    hasSub n (n ++ post) = true := by
  cases n with
  | nil => cases post <;> simp [hasSub, isPref]
  | cons c t => simp [hasSub, isPref, isPref_append]

theorem hasSub_append_left (pre n h : List Char) (hh : hasSub n h = true) :
    hasSub n (pre ++ h) = true := by
  induction pre with
  | nil => simpa using hh
  | cons a as ih => simp [hasSub, ih]

theorem hasSub_mid (pre n post : List Char) :
    hasSub n (pre ++ (n ++ post)) = true :=
  hasSub_append_left pre n _ (hasSub_self_append n post)

theorem strIncludes_mid (a b c : String) :
    strIncludes (a ++ b ++ c) b = true := by
  simp only [strIncludes, String.data_append, List.append_assoc]
  exact hasSub_mid a.data b.data c.data

theorem strIncludes_right (a b : String) :
    strIncludes (a ++ b) b = true := by
  simp only [strIncludes, String.data_append]
  simpa using hasSub_mid a.data b.data []

theorem map_sep_eq_self (l : List Char)
    (h : l.any (fun c => c = '\\') = false) :
    l.map (fun c => if c = '\\' then '/' else c) = l := by
  induction l with
  | nil => rfl
  | cons a t ih =>
    simp only [List.any_cons, Bool.or_eq_false_iff] at h
    simp only [List.map_cons]
    rw [if_neg (by simpa using h.1), ih h.2]

theorem normalizeSeps_eq_self (s : String) (h : strHasChar s '\\' = false) :
    normalizeSeps s = s := by
  cases s with
  | mk data =>
    simp only [normalizeSeps]
    exact congrArg String.mk (map_sep_eq_self data (by simpa [strHasChar] using h))

end Daffodil

namespace Daffodil

/-! ## Claim C9: the Exclude List content -/

/-- Claim C9: for every ignore-file content, the Exclude List contains, in
file order, exactly the trimmed non-empty lines that do not start with a
hash: it is an order-preserving sublist of the trimmed lines, every
entry is non-empty and not a comment, and the documented example content
yields exactly the two-pattern list. -/
theorem loadIgnoreList_spec (content : String) :
    (∀ x ∈ loadIgnoreList content, ¬x = "" ∧ startsWithHash x = false)
    ∧ (loadIgnoreList content).Sublist
        ((splitNl content.data).map (fun l => String.mk (trimL l)))
    ∧ loadIgnoreList "# comment\nnode_modules\n\n.env\n" = ["node_modules", ".env"] := by
  refine ⟨?_, List.filter_sublist _, by decide⟩
  intro x hx
  have h := List.of_mem_filter hx
  simp only [Bool.and_eq_true, Bool.not_eq_true'] at h
  exact ⟨by simpa using h.1, h.2⟩

/-- Witness for C9 at the documented example content and its first
returned entry. -/
theorem loadIgnoreList_spec_witness :
    ¬"node_modules" = "" ∧ startsWithHash "node_modules" = false :=
  (loadIgnoreList_spec "# comment\nnode_modules\n\n.env\n").1 "node_modules" (by decide)

/-! ## Claim C10: the option setter -/

/-- Claim C10: after `setOption`, the verbose flag equals the options
object's verbose field when present and is false when absent; in
particular an options object without the field silently resets a
verbose deployer to false. -/
theorem setOption_spec (o : SetOptions) (old : Bool) :
    (∀ b, o.verbose = some b → setOption o old = b)
    ∧ (o.verbose = none → setOption o old = false)
    ∧ setOption { verbose := none } true = false := by
  refine ⟨fun b hb => ?_, fun hn => ?_, rfl⟩
  · simp [setOption, hb]
  · simp [setOption, hn]

/-- Witness for C10: an options object with the field absent resets a
verbose deployer to false. -/
theorem setOption_spec_witness : setOption { verbose := none } true = false :=
  (setOption_spec { verbose := none } true).2.1 rfl

end Daffodil

namespace Daffodil

/-! ## Claim C5: classification of the pipeline errors

The catch block runs its own local cleanup BEFORE classifying: when the
unguarded local `fs.remove` in the catch throws, the original pipeline
error is swallowed and the cleanup error propagates unclassified, so
the claim fails in its universal no-error-swallowed form (see the
counterexample).  Whenever that removal succeeds, every error thrown
inside the try block is re-raised exactly once as its classification. -/

theorem catchHandler_snd (lp : String) (w : TransferWorld)
    (s : TransferState) (t : Thrown) (h : w.removeInCatchErr = none) :
    (catchHandler lp w s t).2 = classifyTransferError lp t := by
  cases hs : s.localArchive with
  | true =>
    simp only [catchHandler, hs, h, if_pos rfl]
    rw [if_pos trivial]
  | false =>
    simp only [catchHandler, hs]
    rw [if_neg Bool.false_ne_true]

/-- Counterexample to C5 as stated: in a run whose transfer step throws
a connection error, with the catch block's local `fs.remove` itself
throwing, `transferFiles` raises the raw cleanup error: the error
raised inside the pipeline (second conjunct: the try block threw the
connection error) is swallowed rather than classified and re-raised,
and the error actually raised is not the classification of any
pipeline error. -/
theorem classifySwallowed_counterexample :
    (transferFiles [] "site"
        { localExists := true, statIsDirectory := true, statIsFile := false,
          putFileErr := some { message := "read ECONNRESET" },
          removeInCatchErr := some { message := "EBUSY: resource busy, unlink" }
          }).2 =
      Except.error (PipelineError.raw { message := "EBUSY: resource busy, unlink" })
    ∧ tryBody []
        { localExists := true, statIsDirectory := true, statIsFile := false,
          putFileErr := some { message := "read ECONNRESET" },
          removeInCatchErr := some { message := "EBUSY: resource busy, unlink" } } =
      ({ localArchive := true, archiveEverCreated := true, remoteArchive := false },
       Except.error (Thrown.base { message := "read ECONNRESET" }))
    ∧ PipelineError.raw { message := "EBUSY: resource busy, unlink" } ≠
      classifyTransferError "site" (Thrown.base { message := "read ECONNRESET" }) := by
  refine ⟨rfl, rfl, by decide⟩

/-- Claim C5 amended: for every error raised inside the transfer
pipeline after validation, PROVIDED the catch block's local archive
removal does not itself throw, `transferFiles` classifies and re-raises
it exactly once: the raised error is exactly the classification of the
thrown error, where a `PathNotFoundError` is re-raised unchanged, an
error whose code or message indicates ENOENT becomes a
`PathNotFoundError` carrying the missing path parsed from the message
(falling back to the input path), and any other error is wrapped as a
`TransferError` carrying the original cause.  When the local cleanup
removal throws, the original error is swallowed and the cleanup error
propagates unclassified (see the counterexample). -/
theorem transferFiles_classifies (excl : List String) (lp : String)
    (w : TransferWorld) (hex : w.localExists = true)
    (hty : (!w.statIsDirectory && !w.statIsFile) = false)
    (h : w.removeInCatchErr = none) :
    (∀ s t, tryBody excl w = (s, Except.error t) →
        (transferFiles excl lp w).2 =
          Except.error (classifyTransferError lp t))
    ∧ (∀ p ty, classifyTransferError lp (Thrown.pnf p ty) =
        PipelineError.pathNotFound p ty)
    ∧ (∀ e : BaseError, e.code = some "ENOENT" ∨ strIncludes e.message "ENOENT" = true →
        classifyTransferError lp (Thrown.base e) =
          PipelineError.pathNotFound ((parseLstatPath e.message).getD lp)
            "file or directory")
    ∧ (∀ e : BaseError, ¬e.code = some "ENOENT" → strIncludes e.message "ENOENT" = false →
        classifyTransferError lp (Thrown.base e) =
          PipelineError.transfer ("Transfer failed: " ++ e.message) e) := by
  refine ⟨?_, fun p ty => rfl, fun e he => ?_, fun e h1 h2 => ?_⟩
  · intro s t htb
    unfold transferFiles
    simp only [hex, Bool.not_true]
    rw [if_neg Bool.false_ne_true, hty, if_neg Bool.false_ne_true, htb]
    exact congrArg Except.error (catchHandler_snd lp w s t h)
  · rcases he with he | he <;> simp [classifyTransferError, he]
  · simp [classifyTransferError, h1, h2]

/-- Witness for the amended C5: a run whose transfer step throws a
connection error, with a working catch-block removal, raises exactly
the `TransferError` wrapping of that error; and the classifier branches
hold at concrete ENOENT and `PathNotFoundError` inputs. -/
theorem transferFiles_classifies_witness :
    (transferFiles [] "site"
        { localExists := true, statIsDirectory := true, statIsFile := false,
          putFileErr := some { message := "read ECONNRESET" } }).2 =
      Except.error (PipelineError.transfer "Transfer failed: read ECONNRESET"
        { message := "read ECONNRESET" })
    ∧ classifyTransferError "site"
        (Thrown.base { message := "ENOENT: no such file or directory, lstat '/tmp/gone'",
                       code := some "ENOENT" }) =
      PipelineError.pathNotFound "/tmp/gone" "file or directory"
    ∧ classifyTransferError "site" (Thrown.pnf "p" "directory") =
      PipelineError.pathNotFound "p" "directory" := by
  have h := transferFiles_classifies [] "site"
    { localExists := true, statIsDirectory := true, statIsFile := false,
      putFileErr := some { message := "read ECONNRESET" } } rfl rfl rfl
  refine ⟨?_, ?_, h.2.1 "p" "directory"⟩
  · have htb : tryBody []
        { localExists := true, statIsDirectory := true, statIsFile := false,
          putFileErr := some { message := "read ECONNRESET" } } =
        ({ localArchive := true, archiveEverCreated := true, remoteArchive := false },
         Except.error (Thrown.base { message := "read ECONNRESET" })) := rfl
    have hc := h.1 _ _ htb
    rw [hc]
    rfl
  · have he := h.2.2.1
      { message := "ENOENT: no such file or directory, lstat '/tmp/gone'",
        code := some "ENOENT" } (Or.inl rfl)
    rw [he]
    have hp : parseLstatPath "ENOENT: no such file or directory, lstat '/tmp/gone'" =
        some "/tmp/gone" := by decide
    rw [show ({ message := "ENOENT: no such file or directory, lstat '/tmp/gone'",
                code := some "ENOENT" } : BaseError).message =
          "ENOENT: no such file or directory, lstat '/tmp/gone'" from rfl, hp]
    rfl

end Daffodil

namespace Daffodil

/-! ## Claim C4: validation of the local path -/

/-- Claim C4: when the local path does not exist, `transferFiles` fails
with a `PathNotFoundError` carrying exactly that path, typed
`directory` when the path ends with a separator and
`file or directory` otherwise, and no archive artifact is ever
created or left behind. -/
theorem transferFiles_missing_path (excl : List String) (lp : String)
    (w : TransferWorld) (h : w.localExists = false) :
    transferFiles excl lp w =
      ({}, Except.error (PipelineError.pathNotFound lp
        (if strEndsWith lp "/" then "directory" else "file or directory")))
    ∧ (transferFiles excl lp w).1.archiveEverCreated = false
    ∧ (transferFiles excl lp w).1.localArchive = false := by
  have heq : transferFiles excl lp w =
      ({}, Except.error (PipelineError.pathNotFound lp
        (if strEndsWith lp "/" then "directory" else "file or directory"))) := by
    simp [transferFiles, h]
  exact ⟨heq, by rw [heq], by rw [heq]⟩

/-- Witness for C4: a nonexistent directory-looking path (trailing
separator) yields a `PathNotFoundError` of type directory with no
archive artifact. -/
theorem transferFiles_missing_path_witness :
    transferFiles [] "missing/"
        { localExists := false, statIsDirectory := false, statIsFile := false } =
      ({}, Except.error (PipelineError.pathNotFound "missing/" "directory"))
    ∧ (transferFiles [] "missing/"
        { localExists := false, statIsDirectory := false, statIsFile := false
          }).1.archiveEverCreated = false := by
  have h := transferFiles_missing_path [] "missing/"
    { localExists := false, statIsDirectory := false, statIsFile := false } rfl
  refine ⟨?_, h.2.1⟩
  rw [h.1]
  have : strEndsWith "missing/" "/" = true := by decide
  rw [this]
  simp

end Daffodil

namespace Daffodil

/-! ## Claim C3: the glob branch of the matcher

The code does not escape regex metacharacters: the constructed regex
keeps every pattern character other than star and slash as is, so a dot
in a pattern is a regex any-character.  The claim (escaped
metacharacters) is refuted by the pattern `*.log` and the candidate
`appXlog`, which the code excludes and the escaped regex does not. -/

/-- Counterexample to C3 as stated: with pattern `*.log` the code
excludes the candidate `appXlog` (its regex is `^.*.log$` with an
unescaped dot), while the claimed matcher — metacharacters escaped,
so the regex is anchored `.*` followed by a literal `.log` — does not
match it; the basename, substring and suffix checks do not fire either,
so under the claimed semantics `appXlog` is not excluded. -/
theorem globEscape_counterexample :
    patternMatches "*.log" "appXlog" = true
    ∧ specGlobTest (normalizeSeps "*.log") (normalizeSeps "appXlog") = false
    ∧ ¬basename "appXlog" = "*.log"
    ∧ strIncludes (normalizeSeps "appXlog") (normalizeSeps "*.log") = false
    ∧ strEndsWith (normalizeSeps "appXlog") (normalizeSeps "*.log") = false := by
  decide

/-- Claim C3 amended: for every exclude pattern containing a star (within
the fragment free of further regex metacharacters) the matcher excludes
a candidate iff the basename or substring checks fire or the
separator-normalized candidate matches the anchored regex in which
pattern characters are kept UNESCAPED — star means any characters,
slash either separator, and a dot any single character; in particular
`*.log` excludes `app.log` and `logs/app.log` but not `app.logger`
(while also excluding `appXlog` through the unescaped dot). -/
theorem patternMatches_glob_spec (p c : String)
    (hstar : strHasChar (normalizeSeps p) '*' = true)
    (_hsafe : globSafe (normalizeSeps p) = true) :
    (patternMatches p c = true ↔
      (basename c = p ∨ basename c = normalizeSeps p ∨
       strIncludes (normalizeSeps c) (normalizeSeps p) = true ∨
       strEndsWith (normalizeSeps c) (normalizeSeps p) = true ∨
       globTest (normalizeSeps p) (normalizeSeps c) = true))
    ∧ patternMatches "*.log" "app.log" = true
    ∧ patternMatches "*.log" "logs/app.log" = true
    ∧ patternMatches "*.log" "app.logger" = false := by
  refine ⟨?_, by decide, by decide, by decide⟩
  have hb : patternMatches p c =
      ((basename c == p || basename c == normalizeSeps p) ||
       ((strIncludes (normalizeSeps c) (normalizeSeps p) ||
         strEndsWith (normalizeSeps c) (normalizeSeps p)) ||
        globTest (normalizeSeps p) (normalizeSeps c))) := by
    simp only [patternMatches]
    cases h1 : (basename c == p || basename c == normalizeSeps p) with
    | true => simp [h1]
    | false =>
      rw [if_neg Bool.false_ne_true]
      cases h2 : (strIncludes (normalizeSeps c) (normalizeSeps p) ||
          strEndsWith (normalizeSeps c) (normalizeSeps p)) with
      | true => simp [h2]
      | false =>
        rw [if_neg Bool.false_ne_true, hstar, if_pos rfl]
        simp
  rw [hb]
  simp [Bool.or_eq_true, beq_iff_eq, or_assoc]

/-- Witness for the amended C3: the pattern `*.log` excludes `app.log`,
and excludes `appXlog` through the glob branch with its unescaped dot. -/
theorem patternMatches_glob_spec_witness :
    patternMatches "*.log" "app.log" = true
    ∧ patternMatches "*.log" "appXlog" = true := by
  have h := patternMatches_glob_spec "*.log" "appXlog" (by decide) (by decide)
  exact ⟨h.2.1, h.1.mpr (Or.inr (Or.inr (Or.inr (Or.inr (by decide)))))⟩

end Daffodil

namespace Daffodil

/-! ## Claim C8: the non-glob branches of the matcher -/

/-- Claim C8: for every exclude pattern with no star (and no backslash,
so separator normalization leaves it unchanged), the filter excludes a
candidate iff the candidate basename equals the pattern, or the
separator-normalized candidate contains the pattern as a substring, or
it ends with the pattern; when no pattern matches the candidate is
included, and an empty exclude list includes every path. -/
theorem patternMatches_noglob_spec (p c : String)
    (hstar : strHasChar p '*' = false) (hbk : strHasChar p '\\' = false) :
    (patternMatches p c = true ↔
      (basename c = p ∨ strIncludes (normalizeSeps c) p = true ∨
       strEndsWith (normalizeSeps c) p = true))
    ∧ (∀ excl : List String, (∀ q ∈ excl, patternMatches q c = false) →
        shouldInclude excl c = true)
    ∧ shouldInclude [] c = true := by
  have hnp : normalizeSeps p = p := normalizeSeps_eq_self p hbk
  refine ⟨?_, ?_, rfl⟩
  · have hb : patternMatches p c =
        ((basename c == p) ||
         (strIncludes (normalizeSeps c) p || strEndsWith (normalizeSeps c) p)) := by
      simp only [patternMatches, hnp, Bool.or_self]
      cases h1 : (basename c == p) with
      | true => simp [h1]
      | false =>
        rw [if_neg Bool.false_ne_true]
        cases h2 : (strIncludes (normalizeSeps c) p ||
            strEndsWith (normalizeSeps c) p) with
        | true => simp [h2]
        | false =>
          rw [if_neg Bool.false_ne_true, hstar, if_neg Bool.false_ne_true]
          simp
    rw [hb]
    simp [Bool.or_eq_true, beq_iff_eq]
  · intro excl hall
    cases excl with
    | nil => rfl
    | cons a t =>
      simp only [shouldInclude, Bool.not_eq_true']
      exact List.any_eq_false.mpr (fun q hq => by simp [hall q hq])

/-- Witness for C8: the pattern `node_modules` excludes
`project/node_modules/pkg/file.js` via the substring check, and the
empty exclude list includes every candidate. -/
theorem patternMatches_noglob_spec_witness :
    patternMatches "node_modules" "project/node_modules/pkg/file.js" = true
    ∧ shouldInclude [] "src/main.js" = true := by
  have h := patternMatches_noglob_spec "node_modules"
    "project/node_modules/pkg/file.js" (by decide) (by decide)
  exact ⟨h.1.mpr (Or.inr (Or.inl (by decide))), h.2.2⟩

end Daffodil


namespace Daffodil

/-! ## Claim C7: the key-probing loop of `connect` -/

theorem connectLoop_cons_skip (w : ConnectWorld) (a : String) (t : List String)
    (ha : w.keyOnDisk a = false) : connectLoop w (a :: t) = connectLoop w t := by
  simp [connectLoop, ha]

theorem connectLoop_cons_fail (w : ConnectWorld) (a : String) (t : List String)
    (ha : w.keyOnDisk a = true) (hf : w.authOk a = false) :
    connectLoop w (a :: t) =
      (ConnectEvent.tryAuth a :: (connectLoop w t).1, (connectLoop w t).2) := by
  simp [connectLoop, ha, hf]

theorem connectLoop_cons_ok (w : ConnectWorld) (a : String) (t : List String)
    (ha : w.keyOnDisk a = true) (hs : w.authOk a = true) :
    connectLoop w (a :: t) =
      ([ConnectEvent.tryAuth a, ConnectEvent.ensureRemoteDir],
       ConnectResult.connected a) := by
  simp [connectLoop, ha, hs]

theorem findAuth_cons (w : ConnectWorld) (a : String) (t : List String) :
    List.find? (fun j => w.keyOnDisk j && w.authOk j) (a :: t) =
      (if (w.keyOnDisk a && w.authOk a) = true then some a
       else List.find? (fun j => w.keyOnDisk j && w.authOk j) t) := by
  cases hc : (w.keyOnDisk a && w.authOk a) <;> simp [List.find?, hc]

theorem connectLoop_tryAuth_mem (w : ConnectWorld) (ks : List String) (k : String)
    (h : ConnectEvent.tryAuth k ∈ (connectLoop w ks).1) : w.keyOnDisk k = true := by
  induction ks with
  | nil => simp [connectLoop] at h
  | cons a t ih =>
    cases ha : w.keyOnDisk a with
    | false =>
      rw [connectLoop_cons_skip w a t ha] at h
      exact ih h
    | true =>
      cases hs : w.authOk a with
      | true =>
        rw [connectLoop_cons_ok w a t ha hs] at h
        have hk : k = a := by simpa using h
        rw [hk]; exact ha
      | false =>
        rw [connectLoop_cons_fail w a t ha hs] at h
        rcases List.mem_cons.mp h with h | h
        · have hk : k = a := by simpa using h
          rw [hk]; exact ha
        · exact ih h

theorem connectLoop_found (w : ConnectWorld) (ks : List String) (k : String)
    (h : ks.find? (fun j => w.keyOnDisk j && w.authOk j) = some k) :
    connectLoop w ks =
      (((ks.takeWhile (fun j => !(w.keyOnDisk j && w.authOk j))).filter
          (fun j => w.keyOnDisk j)).map ConnectEvent.tryAuth ++
        [ConnectEvent.tryAuth k, ConnectEvent.ensureRemoteDir],
       ConnectResult.connected k) := by
  induction ks with
  | nil => simp [List.find?] at h
  | cons a t ih =>
    rw [findAuth_cons] at h
    cases hc : (w.keyOnDisk a && w.authOk a) with
    | true =>
      rw [if_pos hc] at h
      have hk : a = k := by injection h
      subst hk
      have ha := (Bool.and_eq_true _ _).mp hc
      rw [connectLoop_cons_ok w a t ha.1 ha.2,
        List.takeWhile_cons_of_neg (by simp [hc])]
      simp
    | false =>
      rw [if_neg (by simp [hc])] at h
      have hrec := ih h
      cases ha : w.keyOnDisk a with
      | true =>
        have hf : w.authOk a = false := by
          cases hx : w.authOk a
          · rfl
          · rw [ha, hx] at hc; simp at hc
        rw [connectLoop_cons_fail w a t ha hf, hrec,
          List.takeWhile_cons_of_pos (by simp [hc]),
          List.filter_cons_of_pos ha]
        simp
      | false =>
        rw [connectLoop_cons_skip w a t ha, hrec,
          List.takeWhile_cons_of_pos (by simp [hc]),
          List.filter_cons_of_neg (by simp [ha])]

theorem connectLoop_none (w : ConnectWorld) (ks : List String)
    (h : ks.find? (fun j => w.keyOnDisk j && w.authOk j) = none) :
    connectLoop w ks =
      ((ks.filter (fun j => w.keyOnDisk j)).map ConnectEvent.tryAuth,
       ConnectResult.exited 1) := by
  induction ks with
  | nil => rfl
  | cons a t ih =>
    rw [findAuth_cons] at h
    cases hc : (w.keyOnDisk a && w.authOk a) with
    | true => rw [if_pos hc] at h; exact absurd h (by simp)
    | false =>
      rw [if_neg (by simp [hc])] at h
      have hrec := ih h
      cases ha : w.keyOnDisk a with
      | true =>
        have hf : w.authOk a = false := by
          cases hx : w.authOk a
          · rfl
          · rw [ha, hx] at hc; simp at hc
        rw [connectLoop_cons_fail w a t ha hf, hrec,
          List.filter_cons_of_pos ha]
        simp
      | false =>
        rw [connectLoop_cons_skip w a t ha, hrec,
          List.filter_cons_of_neg (by simp [ha])]

/-- Claim C7: `connect` probes the four conventional key filenames in the
fixed priority order RSA, Ed25519, ECDSA, DSA; it attempts
authentication only with key files that exist on disk; on the first key
that authenticates it ensures the remote base directory exists and
returns, skipping every remaining key; when no existing key
authenticates (or none exists) it exits the process with status 1
instead of raising. -/
theorem connect_spec (w : ConnectWorld) :
    keyFiles = ["id_rsa", "id_ed25519", "id_ecdsa", "id_dsa"]
    ∧ (∀ k, ConnectEvent.tryAuth k ∈ (connect w).1 → w.keyOnDisk k = true)
    ∧ (∀ k, keyFiles.find? (fun j => w.keyOnDisk j && w.authOk j) = some k →
        connect w =
          (((keyFiles.takeWhile (fun j => !(w.keyOnDisk j && w.authOk j))).filter
              (fun j => w.keyOnDisk j)).map ConnectEvent.tryAuth ++
            [ConnectEvent.tryAuth k, ConnectEvent.ensureRemoteDir],
           ConnectResult.connected k))
    ∧ (keyFiles.find? (fun j => w.keyOnDisk j && w.authOk j) = none →
        connect w =
          ((keyFiles.filter (fun j => w.keyOnDisk j)).map ConnectEvent.tryAuth,
           ConnectResult.exited 1)) :=
  ⟨rfl, fun k h => connectLoop_tryAuth_mem w keyFiles k h,
   fun k h => connectLoop_found w keyFiles k h,
   fun h => connectLoop_none w keyFiles h⟩

/-- Witness for C7: with the RSA key absent, the Ed25519 key on disk but
failing, and the ECDSA key on disk and authenticating, `connect` tries
exactly the two existing keys in order, ensures the remote directory,
and connects with the ECDSA key. -/
theorem connect_spec_witness :
    connect { keyOnDisk := fun k => k == "id_ed25519" || k == "id_ecdsa",
              authOk := fun k => k == "id_ecdsa" } =
      ([ConnectEvent.tryAuth "id_ed25519", ConnectEvent.tryAuth "id_ecdsa",
        ConnectEvent.ensureRemoteDir],
       ConnectResult.connected "id_ecdsa") := by
  have h := (connect_spec { keyOnDisk := fun k => k == "id_ed25519" || k == "id_ecdsa",
                            authOk := fun k => k == "id_ecdsa" }).2.2.1
    "id_ecdsa" (by decide)
  exact h.trans (by decide)

end Daffodil

namespace Daffodil

/-! ## Claims C1 and C6: the step orchestrator -/

theorem deployLoop_spec (steps : List Step) (i : Nat) :
    deployLoop i steps = (stepEvents i (attemptedSteps steps), firstFailure steps) := by
  induction steps generalizing i with
  | nil => rfl
  | cons s t ih =>
    cases hc : s.command with
    | some e => simp [deployLoop, attemptedSteps, firstFailure, stepEvents, hc]
    | none => simp [deployLoop, attemptedSteps, firstFailure, stepEvents, hc, ih]

theorem stepEvents_count_dispose (i : Nat) (l : List Step) :
    (stepEvents i l).count DeployEvent.disposeConn = 0 := by
  induction l generalizing i with
  | nil => rfl
  | cons s t ih =>
    have hne : (DeployEvent.disposeConn == DeployEvent.execStep i s.step) = false :=
      beq_eq_false_iff_ne.mpr (fun h => DeployEvent.noConfusion h)
    simp [stepEvents, List.count_cons, ih, hne]

theorem deploy_run (v : Bool) (steps : List Step) :
    deploy true v steps =
      (stepEvents 0 (attemptedSteps steps) ++ [DeployEvent.disposeConn],
       match firstFailure steps with
       | none => DeployResult.ok
       | some (label, e) =>
         if v then
           DeployResult.raised
             { message := "Deployment failed at step: " ++ label ++ ". " ++ e.message,
               suppressStackTrace := false }
         else
           DeployResult.raised { message := "Deployment failed",
                                 suppressStackTrace := true }) := by
  simp only [deploy, Bool.not_true, deployLoop_spec]
  rw [if_neg Bool.false_ne_true]
  cases hf : firstFailure steps with
  | none => simp
  | some p =>
    cases p with
    | mk label e => cases v <;> simp

theorem firstFailure_eq_none_iff (steps : List Step) :
    firstFailure steps = none ↔ ∀ s ∈ steps, s.command = none := by
  induction steps with
  | nil => simp [firstFailure]
  | cons a t ih =>
    cases hc : a.command with
    | some e => simp [firstFailure, hc, List.forall_mem_cons]
    | none => simp [firstFailure, hc, ih, List.forall_mem_cons]

/-- Claim C1: with the connection established, the steps run strictly in
caller-supplied order and execution stops right after the first failing
action: the trace is exactly one execution event per attempted step
(the prefix of the step list through the first failure, with increasing
indices) followed by a single disposal of the connection.  The
connection is disposed exactly once on both the all-success and the
failure path; `deploy` returns normally iff every action succeeds; and
a run with a failing step raises a single Deployment error. -/
theorem deploy_spec (v : Bool) (steps : List Step) :
    (deploy true v steps).1 =
      stepEvents 0 (attemptedSteps steps) ++ [DeployEvent.disposeConn]
    ∧ (deploy true v steps).1.count DeployEvent.disposeConn = 1
    ∧ ((deploy true v steps).2 = DeployResult.ok ↔ ∀ s ∈ steps, s.command = none)
    ∧ (∀ label e, firstFailure steps = some (label, e) →
        ∃ derr, (deploy true v steps).2 = DeployResult.raised derr) := by
  rw [deploy_run]
  refine ⟨rfl, ?_, ?_, ?_⟩
  · have hne : (DeployEvent.disposeConn == DeployEvent.disposeConn) = true := by decide
    simp [List.count_append, stepEvents_count_dispose, List.count_cons, hne]
  · rw [← firstFailure_eq_none_iff]
    cases hf : firstFailure steps with
    | none => simp
    | some p =>
      cases p with
      | mk label e =>
        cases v <;> simp
  · intro label e hf
    rw [hf]
    cases v
    · exact ⟨_, rfl⟩
    · exact ⟨_, rfl⟩

/-- Witness for C1 at the spec example: with steps A (succeeds),
B (fails), C, the trace executes A then B only, C never runs, the
connection is disposed exactly once, and a Deployment error is
raised. -/
theorem deploy_spec_witness :
    (deploy true false
        [{ step := "A", command := none },
         { step := "B", command := some { message := "boom" } },
         { step := "C", command := none }]).1 =
      [DeployEvent.execStep 0 "A", DeployEvent.execStep 1 "B",
       DeployEvent.disposeConn]
    ∧ (∃ derr, (deploy true false
        [{ step := "A", command := none },
         { step := "B", command := some { message := "boom" } },
         { step := "C", command := none }]).2 = DeployResult.raised derr) := by
  have h := deploy_spec false
    [{ step := "A", command := none },
     { step := "B", command := some { message := "boom" } },
     { step := "C", command := none }]
  exact ⟨h.1.trans (by decide), h.2.2.2 "B" { message := "boom" } (by decide)⟩

theorem hasSub_self (n : List Char) : hasSub n n = true := by
  simpa using hasSub_self_append n []

theorem firstFailure_append (pre post : List Step) (s0 : Step) (e : BaseError)
    (h : ∀ s ∈ pre, s.command = none) (h0 : s0.command = some e) :
    firstFailure (pre ++ s0 :: post) = some (s0.step, e) := by
  induction pre with
  | nil => simp [firstFailure, h0]
  | cons a t ih =>
    have ha : a.command = none := h a (by simp)
    simp only [List.cons_append, firstFailure, ha]
    exact ih (fun s hs => h s (by simp [hs]))

/-- Claim C6: when a step fails, in verbose mode the raised Deployment
error message is the fixed prefix followed by the failing step label and
the underlying error message — hence it contains both — and the stack
trace is not suppressed (the stack surface extends beyond the message);
in non-verbose mode the raised error carries the fixed terse message
with no failing-step label, no underlying cause, and a stack surface
equal to the bare message (no stack trace). -/
theorem deploy_error_verbosity (pre post : List Step) (label : String)
    (e : BaseError) (h : ∀ s ∈ pre, s.command = none) :
    ((deploy true true (pre ++ { step := label, command := some e } :: post)).2 =
        DeployResult.raised
          { message := "Deployment failed at step: " ++ label ++ ". " ++ e.message,
            suppressStackTrace := false })
    ∧ strIncludes ("Deployment failed at step: " ++ label ++ ". " ++ e.message)
        label = true
    ∧ strIncludes ("Deployment failed at step: " ++ label ++ ". " ++ e.message)
        e.message = true
    ∧ deploymentErrorStack
        { message := "Deployment failed at step: " ++ label ++ ". " ++ e.message,
          suppressStackTrace := false } ≠
        "Deployment failed at step: " ++ label ++ ". " ++ e.message
    ∧ ((deploy true false (pre ++ { step := label, command := some e } :: post)).2 =
        DeployResult.raised
          { message := "Deployment failed", suppressStackTrace := true })
    ∧ deploymentErrorStack
        { message := "Deployment failed", suppressStackTrace := true } =
        "Deployment failed" := by
  have hf := firstFailure_append pre post
    { step := label, command := some e } e h rfl
  refine ⟨?_, ?_, ?_, ?_, ?_, rfl⟩
  · rw [deploy_run]
    simp [hf]
  · simp only [strIncludes, String.data_append, List.append_assoc]
    exact hasSub_mid _ _ _
  · simp only [strIncludes, String.data_append, List.append_assoc]
    exact hasSub_append_left _ _ _
      (hasSub_append_left _ _ _ (hasSub_append_left _ _ _ (hasSub_self _)))
  · simp only [deploymentErrorStack]
    rw [if_neg Bool.false_ne_true]
    intro heq
    have hlen := congrArg String.length heq
    rw [String.length_append] at hlen
    have hpos : (0 : Nat) <
        ("\n    at <captured stack frames>" : String).length := by decide
    omega
  · rw [deploy_run]
    simp [hf]

/-- Witness for C6: with step A succeeding and step B failing with
message boom, the verbose error carries the label and the cause in its
message with the stack kept, and the non-verbose error is the fixed
terse message with the stack surface equal to it. -/
theorem deploy_error_verbosity_witness :
    (deploy true true
        [{ step := "A", command := none },
         { step := "B", command := some { message := "boom" } }]).2 =
      DeployResult.raised
        { message := "Deployment failed at step: B. boom",
          suppressStackTrace := false }
    ∧ (deploy true false
        [{ step := "A", command := none },
         { step := "B", command := some { message := "boom" } }]).2 =
      DeployResult.raised
        { message := "Deployment failed", suppressStackTrace := true } := by
  have h := deploy_error_verbosity [{ step := "A", command := none }] []
    "B" { message := "boom" } (by decide)
  exact ⟨h.1.trans (by decide), h.2.2.2.2.1⟩

end Daffodil

namespace Daffodil

/-! ## Claim C2: archive cleanup in the transfer pipeline -/

theorem afterCreate_ok (w : TransferWorld) (s0 s : TransferState)
    (h : afterCreate w s0 = (s, Except.ok ())) : s.localArchive = false := by
  simp only [afterCreate] at h
  split at h
  · simp at h
  · split at h
    · simp at h
    · split at h
      · simp at h
      · split at h
        · simp at h
        · split at h
          · simp at h
          · split at h
            · simp at h
            · split at h
              · split at h
                · simp at h
                · rw [Prod.mk.injEq] at h
                  rw [← h.1]
              · next hloc =>
                rw [Prod.mk.injEq] at h
                rw [← h.1]
                exact Bool.eq_false_iff.mpr hloc

theorem tryBody_ok (excl : List String) (w : TransferWorld) (s : TransferState)
    (h : tryBody excl w = (s, Except.ok ())) : s.localArchive = false := by
  simp only [tryBody] at h
  split at h
  · simp at h
  · split at h
    · split at h
      · simp at h
      · split at h
        · simp at h
        · exact afterCreate_ok w _ s h
    · exact afterCreate_ok w _ s h

theorem catchHandler_clears_local (lp : String) (w : TransferWorld)
    (s : TransferState) (t : Thrown) (h : w.removeInCatchErr = none) :
    (catchHandler lp w s t).1.localArchive = false := by
  cases hs : s.localArchive with
  | true =>
    simp only [catchHandler, hs, h, if_pos rfl]
    cases hrc : w.remoteCleanupErr <;> simp [hrc]
  | false =>
    simp only [catchHandler, hs]
    rw [if_neg Bool.false_ne_true]
    cases hrc : w.remoteCleanupErr <;> simp [hrc, hs]

theorem catchHandler_remote_ignored (lp : String) (w : TransferWorld)
    (s : TransferState) (t : Thrown) (e : Option BaseError) :
    (catchHandler lp { w with remoteCleanupErr := e } s t).2 =
      (catchHandler lp { w with remoteCleanupErr := none } s t).2 := by
  cases w with
  | mk le sd sf rd tc tp tr trp tcf rmo pf mkd exe exc exo exs ras ric rc =>
    cases hs : s.localArchive <;> cases ric <;> cases e <;>
      simp [catchHandler, hs]

theorem transferFiles_clears_local (excl : List String) (lp : String)
    (w : TransferWorld) (h : w.removeInCatchErr = none) :
    (transferFiles excl lp w).1.localArchive = false := by
  unfold transferFiles
  split
  · rfl
  · split
    · rfl
    · rcases htb : tryBody excl w with ⟨s, r⟩
      cases r with
      | ok u =>
        cases u
        simpa using tryBody_ok excl w s htb
      | error t =>
        simpa using catchHandler_clears_local lp w s t h

/-- Claim C2 amended: whenever the catch-block removal of the local
archive itself succeeds, the local archive file is gone when
`transferFiles` returns or raises, on every exit path (including runs
in which it was never created); and an error from the remote-archive
cleanup in the catch block is ignored — the raised error does not
depend on it.  The original claim fails for the local half of the
cleanup: an error thrown by the local removal in the catch block
propagates instead of being ignored (see the counterexample). -/
theorem transferFiles_archive_cleanup (excl : List String) (lp : String)
    (w : TransferWorld) (h : w.removeInCatchErr = none) :
    (transferFiles excl lp w).1.localArchive = false
    ∧ (∀ s t e, (catchHandler lp { w with remoteCleanupErr := e } s t).2 =
        (catchHandler lp { w with remoteCleanupErr := none } s t).2) :=
  ⟨transferFiles_clears_local excl lp w h,
   fun s t e => catchHandler_remote_ignored lp w s t e⟩

/-- Witness for the amended C2: a run whose transfer step fails (the
remote copy rejects) with a working catch-block removal ends with no
local archive file. -/
theorem transferFiles_archive_cleanup_witness :
    (transferFiles [] "app"
        { localExists := true, statIsDirectory := false, statIsFile := true,
          putFileErr := some { message := "connection lost" } }).1.localArchive =
      false :=
  (transferFiles_archive_cleanup [] "app"
    { localExists := true, statIsDirectory := false, statIsFile := true,
      putFileErr := some { message := "connection lost" } } rfl).1

/-- Counterexample to C2 as stated: when the remote copy fails and the
catch block's local `fs.remove` itself throws, that cleanup error is
NOT ignored — `transferFiles` raises it raw (the original transfer
error is lost) and the local archive file remains on disk. -/
theorem transferFiles_cleanup_error_counterexample :
    transferFiles [] "app"
        { localExists := true, statIsDirectory := false, statIsFile := true,
          putFileErr := some { message := "putFile failed: connection reset" },
          removeInCatchErr := some { message := "EACCES: permission denied, unlink",
                                     code := some "EACCES" } } =
      ({ localArchive := true, archiveEverCreated := true, remoteArchive := false },
       Except.error (PipelineError.raw
         { message := "EACCES: permission denied, unlink", code := some "EACCES" }))
    ∧ (transferFiles [] "app"
        { localExists := true, statIsDirectory := false, statIsFile := true,
          putFileErr := some { message := "putFile failed: connection reset" },
          removeInCatchErr := some { message := "EACCES: permission denied, unlink",
                                     code := some "EACCES" } }).1.localArchive =
      true := by
  constructor <;> rfl

end Daffodil
